import Mathlib

/-!
Shallow embedding of the NexusTrader trading runtime (Python sources under
nexustrader/ and tradebot/) together with theorems settling the frozen
claims about its specification.  Every definition is translated directly
from the corresponding Python source; definitions that embed code whose
source file is absent from the repository snapshot are marked in their doc
comment as modelled from the spec.
-/

namespace NexusTrader

/-- Embeds nexustrader.constants.OrderStatus (enum with ten members). -/
inductive OrderStatus
  | INITIALIZED
  | FAILED
  | CANCEL_FAILED
  | PENDING
  | CANCELING
  | ACCEPTED
  | PARTIALLY_FILLED
  | FILLED
  | CANCELED
  | EXPIRED
deriving DecidableEq, Repr, Fintype

/-- Embeds nexustrader.constants.ExchangeType. -/
inductive ExchangeType
  | BINANCE
  | OKX
  | BYBIT
deriving DecidableEq, Repr, Fintype

/-- Embeds nexustrader.constants.OrderType. -/
inductive OrderType
  | MARKET
  | LIMIT
deriving DecidableEq, Repr, Fintype

/-- Embeds nexustrader.constants.OrderSide. -/
inductive OrderSide
  | BUY
  | SELL
deriving DecidableEq, Repr, Fintype

/-- Embeds nexustrader.constants.TimeInForce. -/
inductive TimeInForce
  | GTC
  | IOC
  | FOK
deriving DecidableEq, Repr, Fintype

/-- Embeds nexustrader.constants.PositionSide. -/
inductive PositionSide
  | LONG
  | SHORT
  | FLAT
deriving DecidableEq, Repr, Fintype

/-- Embeds nexustrader.constants.InstrumentType (the members used by
InstrumentId.from_str and the market schema). -/
inductive InstrumentType
  | SPOT
  | MARGIN
  | FUTURE
  | OPTION
  | SWAP
  | LINEAR
  | INVERSE
deriving DecidableEq, Repr, Fintype

/-- Embeds nexustrader.constants.SubmitType. -/
inductive SubmitType
  | CREATE
  | CANCEL
  | TWAP
  | CANCEL_TWAP
  | VWAP
  | CANCEL_VWAP
deriving DecidableEq, Repr, Fintype

/-- Embeds the dict literal STATUS_TRANSITIONS of nexustrader/constants.py
(lines 171 to 206), key by key and in order, including the duplicated
CANCELED entry in the PENDING list.  The dict has no key for INITIALIZED
and none for CANCEL_FAILED. -/
def STATUS_TRANSITIONS : List (OrderStatus × List OrderStatus) :=
  [ (OrderStatus.PENDING,
      [ OrderStatus.CANCELED
      , OrderStatus.CANCELING
      , OrderStatus.ACCEPTED
      , OrderStatus.PARTIALLY_FILLED
      , OrderStatus.CANCELED
      , OrderStatus.FILLED
      , OrderStatus.CANCEL_FAILED ])
  , (OrderStatus.CANCELING,
      [ OrderStatus.CANCELED
      , OrderStatus.PARTIALLY_FILLED
      , OrderStatus.FILLED ])
  , (OrderStatus.ACCEPTED,
      [ OrderStatus.PARTIALLY_FILLED
      , OrderStatus.FILLED
      , OrderStatus.CANCELING
      , OrderStatus.CANCELED
      , OrderStatus.EXPIRED
      , OrderStatus.CANCEL_FAILED ])
  , (OrderStatus.PARTIALLY_FILLED,
      [ OrderStatus.PARTIALLY_FILLED
      , OrderStatus.FILLED
      , OrderStatus.CANCELING
      , OrderStatus.CANCELED
      , OrderStatus.EXPIRED
      , OrderStatus.CANCEL_FAILED ])
  , (OrderStatus.FILLED, [])
  , (OrderStatus.CANCELED, [])
  , (OrderStatus.EXPIRED, [])
  , (OrderStatus.FAILED, []) ]

/-- Lookup of a source status in STATUS_TRANSITIONS, mirroring a Python
dict access: none when the key is absent. -/
def transitionsFrom (s : OrderStatus) : Option (List OrderStatus) :=
  (STATUS_TRANSITIONS.find? (fun p => p.1 = s)).map (fun p => p.2)

/-- The transition relation encoded by STATUS_TRANSITIONS: a pair (a, b)
is admitted when the dict has an entry for a whose list contains b; a pair
whose source status is not a key of the dict is rejected. -/
def admitsTransition (a b : OrderStatus) : Bool :=
  match transitionsFrom a with
  | none => false
  | some l => l.contains b

/-- The lifecycle diagram exactly as the claim states it: INITIALIZED to
PENDING or FAILED; PENDING to ACCEPTED, PARTIALLY_FILLED, FILLED,
CANCELING, CANCELED, or CANCEL_FAILED; CANCELING to CANCELED,
PARTIALLY_FILLED, or FILLED; ACCEPTED and PARTIALLY_FILLED each to
PARTIALLY_FILLED, FILLED, CANCELING, CANCELED, EXPIRED, or CANCEL_FAILED;
no outgoing transition from FILLED, CANCELED, EXPIRED, or FAILED. -/
def claimedDiagram : List (OrderStatus × OrderStatus) :=
  [ (OrderStatus.INITIALIZED, OrderStatus.PENDING)
  , (OrderStatus.INITIALIZED, OrderStatus.FAILED)
  , (OrderStatus.PENDING, OrderStatus.ACCEPTED)
  , (OrderStatus.PENDING, OrderStatus.PARTIALLY_FILLED)
  , (OrderStatus.PENDING, OrderStatus.FILLED)
  , (OrderStatus.PENDING, OrderStatus.CANCELING)
  , (OrderStatus.PENDING, OrderStatus.CANCELED)
  , (OrderStatus.PENDING, OrderStatus.CANCEL_FAILED)
  , (OrderStatus.CANCELING, OrderStatus.CANCELED)
  , (OrderStatus.CANCELING, OrderStatus.PARTIALLY_FILLED)
  , (OrderStatus.CANCELING, OrderStatus.FILLED)
  , (OrderStatus.ACCEPTED, OrderStatus.PARTIALLY_FILLED)
  , (OrderStatus.ACCEPTED, OrderStatus.FILLED)
  , (OrderStatus.ACCEPTED, OrderStatus.CANCELING)
  , (OrderStatus.ACCEPTED, OrderStatus.CANCELED)
  , (OrderStatus.ACCEPTED, OrderStatus.EXPIRED)
  , (OrderStatus.ACCEPTED, OrderStatus.CANCEL_FAILED)
  , (OrderStatus.PARTIALLY_FILLED, OrderStatus.PARTIALLY_FILLED)
  , (OrderStatus.PARTIALLY_FILLED, OrderStatus.FILLED)
  , (OrderStatus.PARTIALLY_FILLED, OrderStatus.CANCELING)
  , (OrderStatus.PARTIALLY_FILLED, OrderStatus.CANCELED)
  , (OrderStatus.PARTIALLY_FILLED, OrderStatus.EXPIRED)
  , (OrderStatus.PARTIALLY_FILLED, OrderStatus.CANCEL_FAILED) ]

/-- The claimed diagram with the two INITIALIZED rows removed: the
amended description of the encoded relation. -/
def amendedDiagram : List (OrderStatus × OrderStatus) :=
  claimedDiagram.filter (fun p => p.1 ≠ OrderStatus.INITIALIZED)

/-- Embeds nexustrader.schema.Order (msgspec Struct).  Decimal fields are
modelled as rationals, float fields as rationals as well (no float
arithmetic is performed on them by the embedded operations), and every
optional field as an Option.  Only the fields the embedded operations
read or write are carried. -/
structure Order where
  exchange : ExchangeType
  symbol : String
  status : OrderStatus
  id : Option String := none
  clientOrderId : Option String := none
  timestamp : Option Int := none
  type : Option OrderType := none
  side : Option OrderSide := none
  timeInForce : Option TimeInForce := none
  price : Option ℚ := none
  amount : Option ℚ := none
  filled : Option ℚ := none
  remaining : Option ℚ := none
  positionSide : Option PositionSide := none
deriving DecidableEq, Repr

namespace Order

/-- Embeds the property Order.is_closed of nexustrader/schema.py:
status in [FILLED, CANCELED, EXPIRED]. -/
def is_closed (o : Order) : Bool :=
  [ OrderStatus.FILLED
  , OrderStatus.CANCELED
  , OrderStatus.EXPIRED ].contains o.status

/-- Embeds the property Order.is_opened of nexustrader/schema.py:
status in [PENDING, CANCELING, PARTIALLY_FILLED, ACCEPTED]. -/
def is_opened (o : Order) : Bool :=
  [ OrderStatus.PENDING
  , OrderStatus.CANCELING
  , OrderStatus.PARTIALLY_FILLED
  , OrderStatus.ACCEPTED ].contains o.status

end Order

/-- Splits a character list on a separator character, mirroring the
Python str.split method: splitting the empty string yields one empty
part, and every occurrence of the separator starts a new part. -/
def splitOnChar (c : Char) : List Char → List (List Char)
  | [] => [[]]
  | x :: xs =>
    match splitOnChar c xs with
    | [] => [[]]
    | h :: t => if x = c then [] :: h :: t else (x :: h) :: t

/-- Embeds the ExchangeType(value) enum construction of the Python
source: the member whose value equals the given string, none when the
string is not a member value (Python raises ValueError there). -/
def parseExchange (s : String) : Option ExchangeType :=
  if s = "binance" then some ExchangeType.BINANCE
  else if s = "okx" then some ExchangeType.OKX
  else if s = "bybit" then some ExchangeType.BYBIT
  else none

/-- Embeds nexustrader.schema.InstrumentId (fields symbol, exchange,
type). -/
structure InstrumentId where
  symbol : String
  exchange : ExchangeType
  type : InstrumentType
deriving DecidableEq, Repr

/-- Embeds InstrumentId.from_str of nexustrader/schema.py (lines 38 to
58): split the input on the dot into exactly two parts (any other
arity raises, modelled as none); when the first part contains a hyphen,
split it on the hyphen into exactly two parts and classify as INVERSE
when the part before the hyphen ends with USD and LINEAR otherwise;
with no hyphen classify as SPOT; the exchange is parsed from the
lowercased second part; the symbol field keeps the whole input. -/
def InstrumentId.from_str (symbol : String) : Option InstrumentId :=
  match splitOnChar '.' symbol.data with
  | [symbolPfx, exch] =>
    let ty? : Option InstrumentType :=
      if symbolPfx.contains '-' then
        match splitOnChar '-' symbolPfx with
        | [pfx, _] =>
          some (if [ 'U', 'S', 'D' ].isSuffixOf pfx then InstrumentType.INVERSE
                else InstrumentType.LINEAR)
        | _ => none
      else some InstrumentType.SPOT
    match ty?, parseExchange (String.mk (exch.map Char.toLower)) with
    | some ty, some ex => some { symbol := symbol, exchange := ex, type := ty }
    | _, _ => none
  | _ => none

/-- Modelled from the spec: the string form of an InstrumentId used by
the round trip law InstrumentId.from_str(s).to_str() == s.  The method
to_str is not present in the repository snapshot; since from_str stores
the entire input string in the symbol field, the string form is that
field. -/
def InstrumentId.to_str (i : InstrumentId) : String := i.symbol

/-- Embeds nexustrader.schema.Balance (Decimal fields as rationals). -/
structure Balance where
  asset : String
  free : ℚ := 0
  locked : ℚ := 0
deriving DecidableEq, Repr

/-- Embeds the property Balance.total: free + locked. -/
def Balance.total (b : Balance) : ℚ := b.free + b.locked

/-- Assignment m[k] = v on a Python dict modelled as an association
list with unique keys: replace the binding in place when the key is
present, append it otherwise (insertion order of dicts is preserved). -/
def dictSet {κ α : Type} [DecidableEq κ] : List (κ × α) → κ → α → List (κ × α)
  | [], k, v => [(k, v)]
  | p :: rest, k, v =>
    if p.1 = k then (k, v) :: rest else p :: dictSet rest k v

/-- Lookup m.get(k) on a Python dict modelled as an association list. -/
def dictGet {κ α : Type} [DecidableEq κ] (m : List (κ × α)) (k : κ) : Option α :=
  (m.find? (fun p => p.1 = k)).map (fun p => p.2)

/-- Embeds nexustrader.schema.AccountBalance: the asset to Balance
mapping, modelled as an insertion ordered association list with unique
keys. -/
structure AccountBalance where
  balances : List (String × Balance) := []
deriving DecidableEq, Repr

/-- Embeds AccountBalance._apply of nexustrader/schema.py (lines 295 to
297): for each reported balance, assign balances[balance.asset] =
balance, in list order. -/
def AccountBalance.apply (ab : AccountBalance) (reported : List Balance) :
    AccountBalance :=
  { balances := reported.foldl (fun m b => dictSet m b.asset b) ab.balances }

/-- The balance reported last for a given asset in a report list, if
any. -/
def lastReported (reported : List Balance) (asset : String) : Option Balance :=
  reported.reverse.find? (fun b => b.asset = asset)

/-- Embeds nexustrader.schema.Position (Decimal and float fields as
rationals; the side field is genuinely optional in the source and is
modelled as an Option). -/
structure Position where
  symbol : String
  exchange : ExchangeType
  signedAmount : ℚ := 0
  entryPrice : ℚ := 0
  side : Option PositionSide := none
  unrealizedPnl : ℚ := 0
  realizedPnl : ℚ := 0
deriving DecidableEq, Repr

/-- Modelled from the spec: the OKX wire values of the posSide field
(long, short, net); the file defining OkxPositionSide is not part of the
repository snapshot. -/
inductive OkxPositionSide
  | long
  | short
  | net
deriving DecidableEq, Repr, Fintype

/-- Modelled from the spec: OkxPositionSide.parse_to_position_side as
the hedge mode rules describe it (posSide long maps to LONG, short to
SHORT, net to FLAT); its defining file is not part of the repository
snapshot. -/
def OkxPositionSide.parse_to_position_side : OkxPositionSide → PositionSide
  | OkxPositionSide.long => PositionSide.LONG
  | OkxPositionSide.short => PositionSide.SHORT
  | OkxPositionSide.net => PositionSide.FLAT

/-- Embeds the per event body of OkxPrivateConnector._handle_positions
(connector.py lines 450 to 480): parse posSide; for LONG the signed
amount is pos, for SHORT it is the negation of pos, for FLAT (net mode)
it is pos itself and the side is reassigned to LONG when positive, SHORT
when negative and None when zero; then construct the Position.  The pos
field of the wire message (a decimal string) is modelled as a rational;
the avgPx, upl and realizedPnl strings are modelled as optional
rationals whose falsy case yields zero. -/
def handlePositionData (symbol : String) (posSide : OkxPositionSide) (pos : ℚ)
    (avgPx upl realizedPnl : Option ℚ) : Position :=
  let side0 := posSide.parse_to_position_side
  let sideAmount : Option PositionSide × ℚ :=
    match side0 with
    | PositionSide.LONG => (some PositionSide.LONG, pos)
    | PositionSide.SHORT => (some PositionSide.SHORT, -pos)
    | PositionSide.FLAT =>
      if pos > 0 then (some PositionSide.LONG, pos)
      else if pos < 0 then (some PositionSide.SHORT, pos)
      else (none, pos)
  { symbol := symbol
  , exchange := ExchangeType.OKX
  , side := sideAmount.1
  , signedAmount := sideAmount.2
  , entryPrice := avgPx.getD 0
  , unrealizedPnl := upl.getD 0
  , realizedPnl := realizedPnl.getD 0 }

/-- Embeds the per snapshot body of OkxPrivateConnector._init_position
(connector.py lines 357 to 385), which branches on FLAT first and
otherwise computes exactly as _handle_positions does. -/
def initPositionData (symbol : String) (posSide : OkxPositionSide) (pos : ℚ)
    (avgPx upl realizedPnl : Option ℚ) : Position :=
  let side0 := posSide.parse_to_position_side
  let sideAmount : Option PositionSide × ℚ :=
    match side0 with
    | PositionSide.FLAT =>
      if pos > 0 then (some PositionSide.LONG, pos)
      else if pos < 0 then (some PositionSide.SHORT, pos)
      else (none, pos)
    | PositionSide.LONG => (some PositionSide.LONG, pos)
    | PositionSide.SHORT => (some PositionSide.SHORT, -pos)
  { symbol := symbol
  , exchange := ExchangeType.OKX
  , side := sideAmount.1
  , signedAmount := sideAmount.2
  , entryPrice := avgPx.getD 0
  , unrealizedPnl := upl.getD 0
  , realizedPnl := realizedPnl.getD 0 }

/-- Embeds the fields of the OkxMarket entry that the connector order
methods read: the venue local id, the normalized symbol, and the spot
flag. -/
structure OkxMarket where
  id : String
  symbol : String
  spot : Bool
deriving DecidableEq, Repr

/-- Embeds the OkxTdMode members referenced by the connector (CASH and
CROSS); the file defining the enum is not part of the repository
snapshot. -/
inductive OkxTdMode
  | CASH
  | CROSS
deriving DecidableEq, Repr, Fintype

/-- Embeds OkxPrivateConnector._get_td_mode (connector.py lines 490 to
491). -/
def get_td_mode (market : OkxMarket) : OkxTdMode :=
  if market.spot then OkxTdMode.CASH else OkxTdMode.CROSS

/-- Embeds the fields of the first response datum read by create_order
and cancel_order (res.data[0]). -/
structure OkxOrderAck where
  ordId : String
  clOrdId : String
  ts : Int
deriving DecidableEq, Repr

/-- Python truthiness of an optional decimal: None and zero are falsy. -/
def pyTruthy : Option ℚ → Bool
  | none => false
  | some p => decide (p ≠ 0)

/-- Embeds OkxPrivateConnector.create_order (connector.py lines 523 to
611).  The REST POST together with the read of res.data[0] is modelled
by its outcome, an Except value carrying the acknowledged datum or the
raised exception.  A ValueError raised by the method itself before the
try block (unknown symbol, or a limit order whose price argument is
falsy) is the error case of the result; every Order the source returns
is the ok case.  On a successful POST the order has status PENDING; on
an exception during the POST it has status FAILED and the timestamp of
the local clock. -/
def create_order (market? : Option OkxMarket) (side : OrderSide)
    (type : OrderType) (amount : ℚ) (price : Option ℚ)
    (timeInForce : TimeInForce) (positionSide : Option PositionSide)
    (post : Except String OkxOrderAck) (nowMs : Int) : Except String Order :=
  match market? with
  | none => Except.error "Symbol formated wrongly, or not supported"
  | some market =>
    if type = OrderType.LIMIT ∧ pyTruthy price = false then
      Except.error "Price is required for limit order"
    else
      match post with
      | Except.ok res =>
        Except.ok
          { exchange := ExchangeType.OKX
          , id := some res.ordId
          , clientOrderId := some res.clOrdId
          , timestamp := some res.ts
          , symbol := market.symbol
          , type := some type
          , side := some side
          , amount := some amount
          , price := if pyTruthy price then price else none
          , timeInForce := some timeInForce
          , positionSide := positionSide
          , status := OrderStatus.PENDING
          , filled := some 0
          , remaining := some amount }
      | Except.error _ =>
        Except.ok
          { exchange := ExchangeType.OKX
          , timestamp := some nowMs
          , symbol := market.symbol
          , type := some type
          , side := some side
          , amount := some amount
          , price := if pyTruthy price then price else none
          , timeInForce := some timeInForce
          , positionSide := positionSide
          , status := OrderStatus.FAILED
          , filled := some 0
          , remaining := some amount }

/-- Embeds OkxPrivateConnector.cancel_order (connector.py lines 613 to
645).  Note that the source rebinds symbol to market.id before the try
block, so both constructed orders carry the venue local id in the symbol
field.  On a successful POST the order has status CANCELING; on an
exception during the POST it has status CANCEL_FAILED. -/
def cancel_order (market? : Option OkxMarket) (orderId : String)
    (post : Except String OkxOrderAck) (nowMs : Int) : Except String Order :=
  match market? with
  | none => Except.error "Symbol formated wrongly, or not supported"
  | some market =>
    match post with
    | Except.ok res =>
      Except.ok
        { exchange := ExchangeType.OKX
        , id := some res.ordId
        , clientOrderId := some res.clOrdId
        , timestamp := some res.ts
        , symbol := market.id
        , status := OrderStatus.CANCELING }
    | Except.error _ =>
      Except.ok
        { exchange := ExchangeType.OKX
        , timestamp := some nowMs
        , symbol := market.id
        , status := OrderStatus.CANCEL_FAILED }

/-- Reduced embedding of nexustrader.schema.Kline for the pagination
loop: the loop reads only the start field; the close field stands for
the remaining payload. -/
structure Kline where
  start : Int
  close : ℚ := 0
deriving DecidableEq, Repr

/-- sys.maxsize on a 64 bit build, the default end bound of the
pagination loop. -/
def sysMaxsize : Int := 2 ^ 63 - 1

/-- Embeds the while loop of OkxPublicConnector._request_klines
(connector.py lines 100 to 127).  The REST call (whose instId, bar and
after arguments are fixed across iterations) is modelled as a function
from the moving before cursor to the decoded batch; the fuel argument
bounds the number of iterations of the unbounded source loop.  After
each batch is appended: an empty batch stops; otherwise, with nextStart
the start of the first kline of the batch plus one, the loop stops when
the limit is truthy and the batch is shorter than it, or when nextStart
is at least endTimeMs; otherwise the cursor becomes nextStart. -/
def requestKlinesLoop (fetch : Option Int → List Kline) (limit : Nat)
    (endTimeMs : Int) : Nat → Option Int → List Kline → List Kline
  | 0, _, acc => acc
  | Nat.succ fuel, startTime, acc =>
    let klines := fetch startTime
    let allKlines := acc ++ klines
    match klines with
    | [] => allKlines
    | k :: _ =>
      let nextStart := k.start + 1
      if (limit ≠ 0 ∧ klines.length < limit) ∨ nextStart ≥ endTimeMs then
        allKlines
      else
        requestKlinesLoop fetch limit endTimeMs fuel (some nextStart) allKlines

/-- Embeds OkxPublicConnector._request_klines (connector.py lines 84 to
129): the end bound defaults to sys.maxsize, the limit defaults to 500,
and the loop starts from the given start cursor with an empty
accumulator. -/
def request_klines (fetch : Option Int → List Kline) (limit? : Option Nat)
    (startTime? : Option Int) (endTime? : Option Int) (fuel : Nat) :
    List Kline :=
  let endTimeMs := endTime?.getD sysMaxsize
  let limit := limit?.getD 500
  requestKlinesLoop fetch limit endTimeMs fuel startTime? []

/-- The stopping condition of the amended pagination claim, evaluated on
one fetched batch: the batch is empty, or the limit is truthy and the
batch is shorter than it, or the next cursor (start of the first kline
plus one) is at least endTimeMs. -/
def stopHere (limit : Nat) (endTimeMs : Int) (batch : List Kline) : Bool :=
  match batch with
  | [] => true
  | k :: _ =>
    decide ((limit ≠ 0 ∧ batch.length < limit) ∨ k.start + 1 ≥ endTimeMs)

/-- The sequence of batches the pagination loop fetches, in fetch order:
walk the cursor as the loop does and cut after the first batch
satisfying the stopping condition (or when fuel runs out). -/
def fetchBatches (fetch : Option Int → List Kline) (limit : Nat)
    (endTimeMs : Int) : Nat → Option Int → List (List Kline)
  | 0, _ => []
  | Nat.succ fuel, startTime =>
    let b := fetch startTime
    if stopHere limit endTimeMs b then [b]
    else
      match b with
      | [] => [b]
      | k :: _ => b :: fetchBatches fetch limit endTimeMs fuel (some (k.start + 1))

/-- UTF-8 encoding of one character as its byte values. -/
def charUtf8Bytes (c : Char) : List Nat :=
  let n := c.toNat
  if n < 0x80 then [n]
  else if n < 0x800 then [0xC0 + n / 0x40, 0x80 + n % 0x40]
  else if n < 0x10000 then
    [0xE0 + n / 0x1000, 0x80 + (n / 0x40) % 0x40, 0x80 + n % 0x40]
  else
    [0xF0 + n / 0x40000, 0x80 + (n / 0x1000) % 0x40, 0x80 + (n / 0x40) % 0x40,
      0x80 + n % 0x40]

/-- UTF-8 encoding of a string as its byte values. -/
def stringUtf8Bytes (s : String) : List Nat :=
  (s.data.map charUtf8Bytes).flatten

/-- The bytes urllib.parse.quote_plus leaves unencoded: ASCII letters,
digits, underscore, dot, hyphen and tilde. -/
def isUrlSafeByte (b : Nat) : Bool :=
  (0x30 ≤ b && b ≤ 0x39) || (0x41 ≤ b && b ≤ 0x5A) || (0x61 ≤ b && b ≤ 0x7A)
    || b == 0x5F || b == 0x2E || b == 0x2D || b == 0x7E

/-- Upper case hexadecimal digit for a value below sixteen. -/
def hexUpperDigit (n : Nat) : Char :=
  if n < 10 then Char.ofNat (0x30 + n) else Char.ofNat (55 + n)

/-- Lower case hexadecimal digit for a value below sixteen. -/
def hexLowerDigit (n : Nat) : Char :=
  if n < 10 then Char.ofNat (0x30 + n) else Char.ofNat (87 + n)

/-- Percent encoding of one byte under quote_plus: safe bytes stand for
themselves, the space byte becomes a plus sign, every other byte becomes
a percent sign followed by two upper case hexadecimal digits. -/
def quoteByte (b : Nat) : List Char :=
  if isUrlSafeByte b then [Char.ofNat b]
  else if b == 0x20 then ['+']
  else ['%', hexUpperDigit (b / 16 % 16), hexUpperDigit (b % 16)]

/-- Embeds urllib.parse.quote_plus applied to a string. -/
def quotePlus (s : String) : String :=
  String.mk (((stringUtf8Bytes s).map quoteByte).flatten)

/-- Embeds urllib.parse.urlencode applied to an insertion ordered
payload dict: the key equals value pairs, each side quoted, joined by
ampersands. -/
def urlencode (payload : List (String × String)) : String :=
  String.intercalate "&"
    (payload.map (fun p => quotePlus p.1 ++ "=" ++ quotePlus p.2))

/-- Lower case hexadecimal rendering of a byte list, as the Python
hexdigest method produces for a digest. -/
def hexLower (digest : List Nat) : String :=
  String.mk ((digest.map
    (fun b => [hexLowerDigit (b / 16 % 16), hexLowerDigit (b % 16)])).flatten)

/-- Embeds the query construction of BinanceApiClient._fetch (tradebot
rest_api.py lines 45 to 64) up to the point the query is appended to the
URL: set the timestamp key of the payload dict, URL encode it, and when
signed append the signature parameter, whose value is the lower case
hexadecimal digest of HMAC SHA256 keyed by the secret over exactly the
encoded payload (BinanceApiClient._generate_signature, lines 39 to 43).
The HMAC primitive itself is an opaque parameter producing digest
bytes. -/
def fetchQuery (hmacSha256 : String → String → List Nat) (secret : String)
    (payload : List (String × String)) (timestampMs : Nat) (signed : Bool) :
    String :=
  let payload1 := dictSet payload "timestamp" (toString timestampMs)
  let encoded := urlencode payload1
  if signed then
    encoded ++ "&signature=" ++ hexLower (hmacSha256 secret encoded)
  else encoded

/-- Embeds tradebot.exchange.okx.OkxAccountType (members LIVE, AWS,
DEMO), whose defining file is not part of the repository snapshot; the
members are those the EMS priority list names. -/
inductive OkxAccountType
  | DEMO
  | AWS
  | LIVE
deriving DecidableEq, Repr, Fintype

/-- Embeds OkxExecutionManagementSystem.OKX_ACCOUNT_TYPE_PRIORITY
(tradebot ems.py lines 13 to 17). -/
def OKX_ACCOUNT_TYPE_PRIORITY : List OkxAccountType :=
  [OkxAccountType.DEMO, OkxAccountType.AWS, OkxAccountType.LIVE]

/-- Reduced embedding of tradebot.schema.OrderSubmit: the queue routing
logic never reads the submission payload, so only two identifying
fields are carried. -/
structure OrderSubmit where
  symbol : String
  submitType : SubmitType
deriving DecidableEq, Repr

/-- Embeds OkxExecutionManagementSystem._set_account_type (ems.py lines
34 to 39): the first entry of the priority list that is among the
configured private connector account types, none when no entry is. -/
def set_account_type (connectors : List OkxAccountType) : Option OkxAccountType :=
  OKX_ACCOUNT_TYPE_PRIORITY.find? (fun a => connectors.contains a)

/-- Embeds OkxExecutionManagementSystem._build_order_submit_queues
(ems.py lines 29 to 32): one empty queue per configured OKX account
type, as an association list. -/
def build_order_submit_queues (connectors : List OkxAccountType) :
    List (OkxAccountType × List OrderSubmit) :=
  connectors.map (fun a => (a, []))

/-- Embeds OkxExecutionManagementSystem._submit_order (ems.py lines 41
to 46): when no account type is given the primary one is used; the
submission is appended (put_nowait) to the queue of the chosen account
type.  A missing chosen account type or a missing queue raises (KeyError
on the queue dict), modelled as the error case. -/
def submit_order (queues : List (OkxAccountType × List OrderSubmit))
    (primary : Option OkxAccountType) (order : OrderSubmit)
    (accountType : Option OkxAccountType) :
    Except String (List (OkxAccountType × List OrderSubmit)) :=
  let chosen? := match accountType with
    | some a => some a
    | none => primary
  match chosen? with
  | none => Except.error "KeyError: None"
  | some a =>
    match dictGet queues a with
    | none => Except.error "KeyError"
    | some q => Except.ok (dictSet queues a (q ++ [order]))

/-! Helper lemmas shared by the claim theorems. -/

/-- Looking up a key in a dict after an assignment: the assigned key
yields the new value, any other key is unchanged. -/
theorem dictGet_dictSet {κ α : Type} [DecidableEq κ]
    (m : List (κ × α)) (k k2 : κ) (v : α) :
    dictGet (dictSet m k v) k2 = if k2 = k then some v else dictGet m k2 := by
  induction m with
  | nil =>
    by_cases h : k2 = k
    · subst h; simp [dictSet, dictGet, List.find?_cons]
    · have hd : (decide (k = k2)) = false := decide_eq_false (fun hk => h hk.symm)
      simp [dictSet, dictGet, List.find?_cons, hd, h]
  | cons p rest ih =>
    simp only [dictSet]
    by_cases hp : p.1 = k
    · simp only [if_pos hp, dictGet, List.find?_cons]
      by_cases h2 : k2 = k
      · have hd : (decide (k = k2)) = true := decide_eq_true h2.symm
        simp [hd, h2]
      · have hd : (decide (k = k2)) = false := decide_eq_false (fun hk => h2 hk.symm)
        have hpd : (decide (p.1 = k2)) = false :=
          decide_eq_false (fun hk => h2 (hk ▸ hp))
        simp [hd, hpd, h2]
    · simp only [if_neg hp, dictGet, List.find?_cons]
      by_cases h2 : p.1 = k2
      · have hk2k : ¬ k2 = k := fun hkk => hp (h2.trans hkk)
        have hd : (decide (p.1 = k2)) = true := decide_eq_true h2
        simp [hd, hk2k]
      · have hd : (decide (p.1 = k2)) = false := decide_eq_false h2
        have hrest := ih
        simp only [dictGet] at hrest
        simp only [hd]
        simpa using hrest

/-- The balance reported last for an asset, unfolded over a cons. -/
theorem lastReported_cons (b : Balance) (rest : List Balance) (a : String) :
    lastReported (b :: rest) a
      = (lastReported rest a).or (if b.asset = a then some b else none) := by
  simp only [lastReported, List.reverse_cons, List.find?_append]
  by_cases h : b.asset = a <;> simp [List.find?_cons, h]

/-- Applying a report list to a balances dict: every asset maps to the
balance reported last for it when there is one and to its previous
binding otherwise. -/
theorem applyBalances_get (reported : List Balance) :
    ∀ (m : List (String × Balance)) (a : String),
    dictGet (reported.foldl (fun m b => dictSet m b.asset b) m) a
      = ((lastReported reported a).elim (dictGet m a) some) := by
  induction reported with
  | nil => intro m a; simp [lastReported]
  | cons b rest ih =>
    intro m a
    rw [List.foldl_cons, ih, lastReported_cons]
    cases hr : lastReported rest a with
    | some c => simp
    | none =>
      by_cases h : b.asset = a
      · simp [h, dictGet_dictSet]
      · have ha : ¬ a = b.asset := fun hx => h hx.symm
        simp [h, ha, dictGet_dictSet]

/-! Theorems settling the claims. -/

/-- Claim C1, counterexample: the claim admits the transition
INITIALIZED to PENDING, but STATUS_TRANSITIONS has no entry for
INITIALIZED, so the encoded relation rejects that pair. -/
theorem statusTransitions_initialized_pending_rejected :
    admitsTransition OrderStatus.INITIALIZED OrderStatus.PENDING = false
      ∧ (OrderStatus.INITIALIZED, OrderStatus.PENDING) ∈ claimedDiagram := by
  decide

/-- Claim C1, amended: the relation encoded by STATUS_TRANSITIONS admits
exactly the transitions of the claimed lifecycle diagram minus the two
INITIALIZED rows: INITIALIZED (like every status absent from the dict)
has no admitted outgoing transition, the PENDING, CANCELING, ACCEPTED
and PARTIALLY_FILLED rows are as claimed, every terminal state has no
outgoing transition, and every other ordered pair is rejected. -/
theorem statusTransitions_characterization :
    ∀ a b : OrderStatus,
      admitsTransition a b = true ↔ (a, b) ∈ amendedDiagram := by
  decide

/-- Claim C10: for every Order, is_opened and is_closed never both hold;
an order whose status is INITIALIZED, FAILED or CANCEL_FAILED satisfies
neither; and the two predicates hold exactly on the status sets the
claim lists. -/
theorem order_opened_closed_exclusive_not_exhaustive (o : Order) :
    (¬ (o.is_opened = true ∧ o.is_closed = true))
    ∧ ((o.status = OrderStatus.INITIALIZED ∨ o.status = OrderStatus.FAILED
          ∨ o.status = OrderStatus.CANCEL_FAILED) →
        o.is_opened = false ∧ o.is_closed = false)
    ∧ (o.is_opened = true ↔
        o.status ∈ [ OrderStatus.PENDING, OrderStatus.CANCELING,
          OrderStatus.PARTIALLY_FILLED, OrderStatus.ACCEPTED ])
    ∧ (o.is_closed = true ↔
        o.status ∈ [ OrderStatus.FILLED, OrderStatus.CANCELED,
          OrderStatus.EXPIRED ]) := by
  cases h : o.status <;>
    simp [Order.is_opened, Order.is_closed, h]

/-- Witness for claim C10 at a concrete order with status INITIALIZED:
neither predicate holds there. -/
theorem order_opened_closed_witness :
    ({ exchange := ExchangeType.OKX, symbol := "BTCUSDT.OKX",
       status := OrderStatus.INITIALIZED } : Order).is_opened = false
    ∧ ({ exchange := ExchangeType.OKX, symbol := "BTCUSDT.OKX",
         status := OrderStatus.INITIALIZED } : Order).is_closed = false :=
  (order_opened_closed_exclusive_not_exhaustive _).2.1 (Or.inl rfl)

/-- Claim C8: AccountBalance._apply replaces exactly the entries for
the reported assets (each becomes the balance reported last for it),
leaves every entry for an unreported asset unchanged, and never removes
an asset from the map. -/
theorem accountBalance_apply_frame (ab : AccountBalance) (reported : List Balance) :
    (∀ a b, lastReported reported a = some b →
        dictGet (ab.apply reported).balances a = some b)
    ∧ (∀ a, lastReported reported a = none →
        dictGet (ab.apply reported).balances a = dictGet ab.balances a)
    ∧ (∀ a b, dictGet ab.balances a = some b →
        ∃ c, dictGet (ab.apply reported).balances a = some c) := by
  refine ⟨?_, ?_, ?_⟩
  · intro a b h
    simp [AccountBalance.apply, applyBalances_get, h]
  · intro a h
    simp [AccountBalance.apply, applyBalances_get, h]
  · intro a b h
    cases hr : lastReported reported a with
    | some c => exact ⟨c, by simp [AccountBalance.apply, applyBalances_get, hr]⟩
    | none => exact ⟨b, by simp [AccountBalance.apply, applyBalances_get, hr, h]⟩

/-- Witness for claim C8: applying a report of one USDT balance to a map
holding BTC and USDT replaces the USDT entry, keeps the BTC entry, and
removes nothing. -/
theorem accountBalance_apply_witness :
    dictGet ((AccountBalance.mk
        [ ("BTC", { asset := "BTC", free := 1 })
        , ("USDT", { asset := "USDT", free := 5 }) ]).apply
          [ { asset := "USDT", free := 7, locked := 2 } ]).balances "USDT"
      = some { asset := "USDT", free := 7, locked := 2 }
    ∧ dictGet ((AccountBalance.mk
        [ ("BTC", { asset := "BTC", free := 1 })
        , ("USDT", { asset := "USDT", free := 5 }) ]).apply
          [ { asset := "USDT", free := 7, locked := 2 } ]).balances "BTC"
      = some { asset := "BTC", free := 1 } :=
  ⟨(accountBalance_apply_frame _ _).1 "USDT" _ (by decide),
   (accountBalance_apply_frame _ _).2.1 "BTC" (by decide)⟩

/-- Inversion of a successful InstrumentId.from_str parse: the input
split into exactly two parts on the dot, the exchange part parsed, the
result keeps the whole input in the symbol field, and the type was
computed from the hyphen shape of the first part. -/
theorem from_str_inv (s : String) (i : InstrumentId)
    (h : InstrumentId.from_str s = some i) :
    ∃ pfxPart exchPart ex,
      splitOnChar '.' s.data = [pfxPart, exchPart]
      ∧ parseExchange (String.mk (exchPart.map Char.toLower)) = some ex
      ∧ i = { symbol := s, exchange := ex, type := i.type }
      ∧ ((pfxPart.contains '-' = false ∧ i.type = InstrumentType.SPOT)
        ∨ (∃ p q, pfxPart.contains '-' = true ∧ splitOnChar '-' pfxPart = [p, q]
            ∧ i.type = (if [ 'U', 'S', 'D' ].isSuffixOf p then
                InstrumentType.INVERSE else InstrumentType.LINEAR))) := by
  unfold InstrumentId.from_str at h
  split at h
  case h_2 => exact absurd h (by simp)
  case h_1 pfxPart exchPart heq =>
    by_cases hc : pfxPart.contains '-' = true
    · rw [if_pos hc] at h
      rcases hs : splitOnChar '-' pfxPart with _ | ⟨p, t⟩
      · rw [hs] at h; simp at h
      · rcases t with _ | ⟨q, t2⟩
        · rw [hs] at h; simp at h
        · rcases t2 with _ | ⟨r, t3⟩
          · rw [hs] at h
            cases hex : parseExchange (String.mk (List.map Char.toLower exchPart)) with
            | none => rw [hex] at h; simp at h
            | some ex =>
              rw [hex] at h
              simp only [Option.some.injEq] at h
              refine ⟨pfxPart, exchPart, ex, heq, hex, ?_,
                Or.inr ⟨p, q, hc, hs, ?_⟩⟩
              · rw [← h]
              · rw [← h]
          · rw [hs] at h; simp at h
    · rw [if_neg hc] at h
      cases hex : parseExchange (String.mk (List.map Char.toLower exchPart)) with
      | none => rw [hex] at h; simp at h
      | some ex =>
        rw [hex] at h
        simp only [Option.some.injEq] at h
        have hcf : pfxPart.contains '-' = false := by
          cases hcv : pfxPart.contains '-'
          · rfl
          · exact absurd hcv hc
        refine ⟨pfxPart, exchPart, ex, heq, hex, ?_, Or.inl ⟨hcf, ?_⟩⟩
        · rw [← h]
        · rw [← h]

/-- Claim C6: InstrumentId.from_str classifies every successfully parsed
symbol by the shape of the part before the venue suffix: no hyphen gives
SPOT, a hyphen with a prefix ending in USD gives INVERSE, a hyphen with
any other prefix gives LINEAR; and the three fixture symbols parse to
SPOT, LINEAR and INVERSE respectively. -/
theorem from_str_classification (s : String) (i : InstrumentId)
    (h : InstrumentId.from_str s = some i) :
    (∃ pfxPart exchPart, splitOnChar '.' s.data = [pfxPart, exchPart]
      ∧ (pfxPart.contains '-' = false → i.type = InstrumentType.SPOT)
      ∧ (pfxPart.contains '-' = true →
          ∃ p q, splitOnChar '-' pfxPart = [p, q]
            ∧ i.type = (if [ 'U', 'S', 'D' ].isSuffixOf p then
                InstrumentType.INVERSE else InstrumentType.LINEAR)))
    ∧ (InstrumentId.from_str "BTC/USDT.BINANCE").map InstrumentId.type
        = some InstrumentType.SPOT
    ∧ (InstrumentId.from_str "BTCUSDT-PERP.BINANCE").map InstrumentId.type
        = some InstrumentType.LINEAR
    ∧ (InstrumentId.from_str "BTCUSD-241227.BINANCE").map InstrumentId.type
        = some InstrumentType.INVERSE := by
  refine ⟨?_, by decide, by decide, by decide⟩
  obtain ⟨pfxPart, exchPart, ex, heq, hex, hi, hshape⟩ := from_str_inv s i h
  refine ⟨pfxPart, exchPart, heq, ?_, ?_⟩
  · intro hnone
    rcases hshape with ⟨hc0, hty⟩ | ⟨p, q, hc1, _, _⟩
    · exact hty
    · rw [hnone] at hc1; exact absurd hc1 (by simp)
  · intro hsome
    rcases hshape with ⟨hc0, _⟩ | ⟨p, q, hc1, hs, hty⟩
    · rw [hsome] at hc0; exact absurd hc0 (by simp)
    · exact ⟨p, q, hs, hty⟩

/-- Witness for claim C6 at the linear fixture: the parse succeeds and
the classification applies. -/
theorem from_str_classification_witness :
    ∃ pfxPart exchPart,
      splitOnChar '.' ("BTCUSDT-PERP.BINANCE").data = [pfxPart, exchPart]
      ∧ (pfxPart.contains '-' = false →
          InstrumentType.LINEAR = InstrumentType.SPOT)
      ∧ (pfxPart.contains '-' = true →
          ∃ p q, splitOnChar '-' pfxPart = [p, q]
            ∧ InstrumentType.LINEAR = (if [ 'U', 'S', 'D' ].isSuffixOf p then
                InstrumentType.INVERSE else InstrumentType.LINEAR)) :=
  (from_str_classification "BTCUSDT-PERP.BINANCE"
    { symbol := "BTCUSDT-PERP.BINANCE", exchange := ExchangeType.BINANCE,
      type := InstrumentType.LINEAR } (by decide)).1

/-- Claim C7: parsing a well formed symbol and printing the result
returns the original string; spec modelled printer to_str, which reads
the symbol field holding the full input. -/
theorem from_str_to_str_roundtrip (s : String) (i : InstrumentId)
    (h : InstrumentId.from_str s = some i) :
    i.to_str = s := by
  obtain ⟨_, _, _, _, _, hi, _⟩ := from_str_inv s i h
  exact congrArg InstrumentId.symbol hi

/-- Witness for claim C7 at the spot fixture. -/
theorem from_str_to_str_roundtrip_witness :
    InstrumentId.to_str
      { symbol := "BTC/USDT.BINANCE", exchange := ExchangeType.BINANCE,
        type := InstrumentType.SPOT } = "BTC/USDT.BINANCE" :=
  from_str_to_str_roundtrip "BTC/USDT.BINANCE" _ (by decide)

/-- Claim C2, counterexample: an OKX position event with posSide long
and pos zero is mapped to side LONG with signed amount zero, so the
claimed equivalence side LONG iff signed amount positive fails on an
applied event (and a net event with pos zero yields side None, not
FLAT). -/
theorem position_invariant_counterexample :
    (handlePositionData "BTC-USDT-SWAP" OkxPositionSide.long 0 none none none).side
        = some PositionSide.LONG
    ∧ (handlePositionData "BTC-USDT-SWAP" OkxPositionSide.long 0 none none
        none).signedAmount = 0
    ∧ ¬ ((0 : ℚ) > 0)
    ∧ (handlePositionData "BTC-USDT-SWAP" OkxPositionSide.net 0 none none none).side
        = none := by
  refine ⟨rfl, rfl, by norm_num, by norm_num [handlePositionData,
    OkxPositionSide.parse_to_position_side]⟩

/-- Claim C2, amended: _init_position and _handle_positions compute the
same position from the same event; the side is never FLAT; a net event
keeps pos as the signed amount, with side LONG exactly when it is
positive, SHORT exactly when it is negative, and None (rather than
FLAT) when it is zero; a long event yields side LONG with signed amount
pos and a short event side SHORT with signed amount minus pos, so the
sign equivalences for LONG and SHORT hold for every net event and for
every long or short event whose pos is positive; and the three fixture
events behave as the claim states. -/
theorem position_side_sign (symbol : String) (posSide : OkxPositionSide)
    (pos : ℚ) (avgPx upl rl : Option ℚ) :
    initPositionData symbol posSide pos avgPx upl rl
        = handlePositionData symbol posSide pos avgPx upl rl
    ∧ (handlePositionData symbol posSide pos avgPx upl rl).side
        ≠ some PositionSide.FLAT
    ∧ (posSide = OkxPositionSide.net →
        ((handlePositionData symbol posSide pos avgPx upl rl).side
            = some PositionSide.LONG ↔ pos > 0)
        ∧ ((handlePositionData symbol posSide pos avgPx upl rl).side
            = some PositionSide.SHORT ↔ pos < 0)
        ∧ ((handlePositionData symbol posSide pos avgPx upl rl).side
            = none ↔ pos = 0)
        ∧ (handlePositionData symbol posSide pos avgPx upl rl).signedAmount = pos)
    ∧ (posSide = OkxPositionSide.long →
        (handlePositionData symbol posSide pos avgPx upl rl).side
            = some PositionSide.LONG
        ∧ (handlePositionData symbol posSide pos avgPx upl rl).signedAmount = pos)
    ∧ (posSide = OkxPositionSide.short →
        (handlePositionData symbol posSide pos avgPx upl rl).side
            = some PositionSide.SHORT
        ∧ (handlePositionData symbol posSide pos avgPx upl rl).signedAmount = -pos)
    ∧ ((0 < pos ∨ posSide = OkxPositionSide.net) →
        ((handlePositionData symbol posSide pos avgPx upl rl).side
            = some PositionSide.LONG
          ↔ (handlePositionData symbol posSide pos avgPx upl rl).signedAmount > 0)
        ∧ ((handlePositionData symbol posSide pos avgPx upl rl).side
            = some PositionSide.SHORT
          ↔ (handlePositionData symbol posSide pos avgPx upl rl).signedAmount < 0))
    ∧ (handlePositionData symbol OkxPositionSide.net (-(1/2)) avgPx upl rl).side
        = some PositionSide.SHORT
    ∧ (handlePositionData symbol OkxPositionSide.net (-(1/2)) avgPx upl
        rl).signedAmount = -(1/2)
    ∧ (handlePositionData symbol OkxPositionSide.long (1/2) avgPx upl rl).side
        = some PositionSide.LONG
    ∧ (handlePositionData symbol OkxPositionSide.long (1/2) avgPx upl
        rl).signedAmount = 1/2
    ∧ (handlePositionData symbol OkxPositionSide.short (1/2) avgPx upl rl).side
        = some PositionSide.SHORT
    ∧ (handlePositionData symbol OkxPositionSide.short (1/2) avgPx upl
        rl).signedAmount = -(1/2) := by
  refine ⟨?_, ?_, ?_, ?_, ?_, ?_, ?_, ?_, rfl, rfl, rfl, rfl⟩
  · cases posSide <;> rfl
  · cases posSide with
    | long => simp [handlePositionData, OkxPositionSide.parse_to_position_side]
    | short => simp [handlePositionData, OkxPositionSide.parse_to_position_side]
    | net =>
      simp only [handlePositionData, OkxPositionSide.parse_to_position_side]
      split_ifs <;> simp
  · intro h; subst h
    simp only [handlePositionData, OkxPositionSide.parse_to_position_side]
    rcases lt_trichotomy pos 0 with hneg | hzero | hpos
    · have h1 : ¬ pos > 0 := by linarith
      rw [if_neg h1, if_pos hneg]
      exact ⟨iff_of_false (by simp) h1, iff_of_true rfl hneg,
        iff_of_false (by simp) hneg.ne, rfl⟩
    · subst hzero
      rw [if_neg (by norm_num), if_neg (by norm_num)]
      exact ⟨iff_of_false (by simp) (by norm_num),
        iff_of_false (by simp) (by norm_num), iff_of_true rfl rfl, rfl⟩
    · rw [if_pos hpos]
      exact ⟨iff_of_true rfl hpos, iff_of_false (by simp) (by linarith),
        iff_of_false (by simp) hpos.ne.symm, rfl⟩
  · intro h; subst h; exact ⟨rfl, rfl⟩
  · intro h; subst h; exact ⟨rfl, rfl⟩
  · intro h
    cases posSide with
    | long =>
      have hpos : 0 < pos := by
        rcases h with h1 | h2
        · exact h1
        · exact absurd h2 (by simp)
      have hside : (handlePositionData symbol OkxPositionSide.long pos avgPx upl
        rl).side = some PositionSide.LONG := rfl
      have hsa : (handlePositionData symbol OkxPositionSide.long pos avgPx upl
        rl).signedAmount = pos := rfl
      rw [hside, hsa]
      exact ⟨iff_of_true rfl hpos, iff_of_false (by simp) (by linarith)⟩
    | short =>
      have hpos : 0 < pos := by
        rcases h with h1 | h2
        · exact h1
        · exact absurd h2 (by simp)
      have hside : (handlePositionData symbol OkxPositionSide.short pos avgPx upl
        rl).side = some PositionSide.SHORT := rfl
      have hsa : (handlePositionData symbol OkxPositionSide.short pos avgPx upl
        rl).signedAmount = -pos := rfl
      rw [hside, hsa]
      exact ⟨iff_of_false (by simp) (by linarith), iff_of_true rfl (by linarith)⟩
    | net =>
      simp only [handlePositionData, OkxPositionSide.parse_to_position_side]
      rcases lt_trichotomy pos 0 with hneg | hzero | hpos
      · have h1 : ¬ pos > 0 := by linarith
        rw [if_neg h1, if_pos hneg]
        exact ⟨iff_of_false (by simp) h1, iff_of_true rfl hneg⟩
      · subst hzero
        rw [if_neg (by norm_num), if_neg (by norm_num)]
        exact ⟨iff_of_false (by simp) (by norm_num),
          iff_of_false (by simp) (by norm_num)⟩
      · rw [if_pos hpos]
        exact ⟨iff_of_true rfl hpos, iff_of_false (by simp) (by linarith)⟩
  · show (if (-(1/2) : ℚ) > 0 then (some PositionSide.LONG, (-(1/2) : ℚ))
      else if (-(1/2) : ℚ) < 0 then (some PositionSide.SHORT, (-(1/2) : ℚ))
      else (none, (-(1/2) : ℚ))).1 = some PositionSide.SHORT
    rw [if_neg (by norm_num), if_pos (by norm_num)]
  · show (if (-(1/2) : ℚ) > 0 then (some PositionSide.LONG, (-(1/2) : ℚ))
      else if (-(1/2) : ℚ) < 0 then (some PositionSide.SHORT, (-(1/2) : ℚ))
      else (none, (-(1/2) : ℚ))).2 = -(1/2)
    rw [if_neg (by norm_num), if_pos (by norm_num)]

/-- Witness for claim C2 at the net short fixture: applying the amended
theorem at posSide net and pos minus one half gives side SHORT. -/
theorem position_side_sign_witness :
    (handlePositionData "BTC-USDT-SWAP" OkxPositionSide.net (-(1/2)) none none
      none).side = some PositionSide.SHORT :=
  (((position_side_sign "BTC-USDT-SWAP" OkxPositionSide.net (-(1/2)) none none
    none).2.2.1 rfl).2.1).mpr (by norm_num)

/-- Claim C3, counterexample: called with a symbol that does not resolve
in the market catalogue, create_order raises a ValueError to the caller
before the guarded POST instead of returning an Order, and cancel_order
does the same. -/
theorem create_order_raises_counterexample :
    create_order none OrderSide.BUY OrderType.MARKET 1 none TimeInForce.GTC
        none (Except.ok { ordId := "1", clOrdId := "c", ts := 0 }) 0
      = Except.error "Symbol formated wrongly, or not supported"
    ∧ cancel_order none "1" (Except.ok { ordId := "1", clOrdId := "c", ts := 0 }) 0
      = Except.error "Symbol formated wrongly, or not supported" :=
  ⟨rfl, rfl⟩

/-- Claim C3, amended: when the symbol resolves in the market catalogue
(and, for a limit order, a truthy price is supplied), create_order and
cancel_order return an Order and convert any exception thrown by the
POST into a status instead of propagating it: create_order returns
status PENDING on a successful POST and FAILED on an exception, and
cancel_order returns status CANCELING on a successful POST and
CANCEL_FAILED on an exception; a symbol that does not resolve (or a
falsy limit price) raises ValueError. -/
theorem create_cancel_order_status (market : OkxMarket) (side : OrderSide)
    (type : OrderType) (amount : ℚ) (price : Option ℚ) (tif : TimeInForce)
    (ps : Option PositionSide) (post postC : Except String OkxOrderAck)
    (nowMs : Int) (orderId : String)
    (hprice : type = OrderType.LIMIT → pyTruthy price = true) :
    (∃ o : Order,
      create_order (some market) side type amount price tif ps post nowMs
          = Except.ok o
      ∧ o.status = (match post with
          | Except.ok _ => OrderStatus.PENDING
          | Except.error _ => OrderStatus.FAILED))
    ∧ (∃ o : Order,
      cancel_order (some market) orderId postC nowMs = Except.ok o
      ∧ o.status = (match postC with
          | Except.ok _ => OrderStatus.CANCELING
          | Except.error _ => OrderStatus.CANCEL_FAILED)) := by
  constructor
  · have hcond : ¬ (type = OrderType.LIMIT ∧ pyTruthy price = false) := by
      rintro ⟨h1, h2⟩
      rw [hprice h1] at h2
      exact absurd h2 (by simp)
    cases post with
    | ok res =>
      refine ⟨{ exchange := ExchangeType.OKX, id := some res.ordId,
                clientOrderId := some res.clOrdId, timestamp := some res.ts,
                symbol := market.symbol, type := some type, side := some side,
                amount := some amount,
                price := if pyTruthy price then price else none,
                timeInForce := some tif, positionSide := ps,
                status := OrderStatus.PENDING, filled := some 0,
                remaining := some amount }, ?_, rfl⟩
      simp only [create_order, if_neg hcond]
    | error e =>
      refine ⟨{ exchange := ExchangeType.OKX, timestamp := some nowMs,
                symbol := market.symbol, type := some type, side := some side,
                amount := some amount,
                price := if pyTruthy price then price else none,
                timeInForce := some tif, positionSide := ps,
                status := OrderStatus.FAILED, filled := some 0,
                remaining := some amount }, ?_, rfl⟩
      simp only [create_order, if_neg hcond]
  · cases postC with
    | ok res => exact ⟨_, rfl, rfl⟩
    | error e => exact ⟨_, rfl, rfl⟩

/-- Witness for claim C3: a market buy on a resolvable symbol whose POST
fails returns an Order with status FAILED (and the failing cancel path
returns CANCEL_FAILED). -/
theorem create_cancel_order_status_witness :
    (∃ o : Order,
      create_order (some { id := "BTC-USDT", symbol := "BTC/USDT.OKX",
                           spot := true }) OrderSide.BUY OrderType.MARKET 1 none
          TimeInForce.GTC none (Except.error "TimeoutError") 0
        = Except.ok o
      ∧ o.status = OrderStatus.FAILED)
    ∧ (∃ o : Order,
      cancel_order (some { id := "BTC-USDT", symbol := "BTC/USDT.OKX",
                           spot := true }) "42" (Except.error "TimeoutError") 0
        = Except.ok o
      ∧ o.status = OrderStatus.CANCEL_FAILED) :=
  create_cancel_order_status
    { id := "BTC-USDT", symbol := "BTC/USDT.OKX", spot := true }
    OrderSide.BUY OrderType.MARKET 1 none TimeInForce.GTC none
    (Except.error "TimeoutError") (Except.error "TimeoutError") 0 "42"
    (by decide)

/-- The pagination loop returns the accumulator followed by the
concatenation of the fetched batch sequence. -/
theorem requestKlinesLoop_eq_flatten (fetch : Option Int → List Kline)
    (limit : Nat) (endTimeMs : Int) :
    ∀ (fuel : Nat) (startTime : Option Int) (acc : List Kline),
    requestKlinesLoop fetch limit endTimeMs fuel startTime acc
      = acc ++ (fetchBatches fetch limit endTimeMs fuel startTime).flatten := by
  intro fuel
  induction fuel with
  | zero => intro st acc; simp [requestKlinesLoop, fetchBatches]
  | succ n ih =>
    intro st acc
    simp only [requestKlinesLoop, fetchBatches]
    generalize fetch st = fs
    cases fs with
    | nil => simp [stopHere]
    | cons k t =>
      dsimp only
      by_cases hcond : (limit ≠ 0 ∧ (k :: t).length < limit)
          ∨ k.start + 1 ≥ endTimeMs
      · rw [if_pos hcond,
          if_pos (by simp only [stopHere, decide_eq_true_eq]; exact hcond)]
        simp
      · rw [if_neg hcond,
          if_neg (by simp only [stopHere, decide_eq_true_eq]; exact hcond), ih]
        simp

/-- Every batch before the last one fails the stopping condition. -/
theorem fetchBatches_dropLast (fetch : Option Int → List Kline) (limit : Nat)
    (endTimeMs : Int) :
    ∀ (fuel : Nat) (st : Option Int) (b : List Kline),
      b ∈ (fetchBatches fetch limit endTimeMs fuel st).dropLast →
      stopHere limit endTimeMs b = false := by
  intro fuel
  induction fuel with
  | zero => intro st b hmem; simp [fetchBatches] at hmem
  | succ n ih =>
    intro st b hmem
    simp only [fetchBatches] at hmem
    generalize hg : fetch st = fs at hmem
    cases fs with
    | nil => simp [stopHere] at hmem
    | cons k t =>
      dsimp only at hmem
      by_cases hstop : stopHere limit endTimeMs (k :: t) = true
      · rw [if_pos hstop] at hmem; simp at hmem
      · rw [if_neg hstop] at hmem
        cases hrest : fetchBatches fetch limit endTimeMs n (some (k.start + 1)) with
        | nil => rw [hrest] at hmem; simp at hmem
        | cons r rs =>
          rw [hrest, List.dropLast_cons₂] at hmem
          rcases List.mem_cons.mp hmem with hbk | hbrest
          · subst hbk
            simp only [Bool.not_eq_true] at hstop
            exact hstop
          · exact ih (some (k.start + 1)) b (by rw [hrest]; exact hbrest)

/-- When fuel was not exhausted, the last batch satisfies the stopping
condition. -/
theorem fetchBatches_getLast (fetch : Option Int → List Kline) (limit : Nat)
    (endTimeMs : Int) :
    ∀ (fuel : Nat) (st : Option Int),
      (fetchBatches fetch limit endTimeMs fuel st).length < fuel →
      ∃ b, (fetchBatches fetch limit endTimeMs fuel st).getLast? = some b
        ∧ stopHere limit endTimeMs b = true := by
  intro fuel
  induction fuel with
  | zero => intro st h; simp [fetchBatches] at h
  | succ n ih =>
    intro st h
    simp only [fetchBatches] at h ⊢
    generalize hg : fetch st = fs at h ⊢
    cases fs with
    | nil =>
      exact ⟨[], by simp [stopHere], by simp [stopHere]⟩
    | cons k t =>
      dsimp only at h ⊢
      by_cases hstop : stopHere limit endTimeMs (k :: t) = true
      · rw [if_pos hstop] at h ⊢
        exact ⟨k :: t, by simp, hstop⟩
      · rw [if_neg hstop] at h ⊢
        have hlen : (fetchBatches fetch limit endTimeMs n
            (some (k.start + 1))).length < n := by
          simp only [List.length_cons] at h
          omega
        obtain ⟨b, hgl, hsb⟩ := ih (some (k.start + 1)) hlen
        refine ⟨b, ?_, hsb⟩
        cases hrest : fetchBatches fetch limit endTimeMs n (some (k.start + 1)) with
        | nil => rw [hrest] at hgl; simp at hgl
        | cons r rs =>
          rw [hrest] at hgl
          rw [List.getLast?_cons_cons]
          exact hgl

/-- Claim C5, counterexample: with limit one and end bound five, a first
batch of length one whose first kline starts at four makes the next
cursor equal to the end bound, so the loop stops even though the batch
is nonempty, its length is not below the limit, and the next cursor does
not exceed the end bound, and a further nonempty batch was available at
the next cursor. -/
theorem request_klines_counterexample :
    request_klines
        (fun st => if st = none then [{ start := 4 }] else [{ start := 10 }])
        (some 1) none (some 5) 10
      = [{ start := 4 }]
    ∧ ([ { start := 4 } ] : List Kline) ≠ []
    ∧ ¬ (([ { start := 4 } ] : List Kline).length < 1)
    ∧ ¬ ((4 : Int) + 1 > 5)
    ∧ (fun st => if st = none then [({ start := 4 } : Kline)]
        else [{ start := 10 }]) (some 5) ≠ [] := by
  refine ⟨by decide, by simp, by simp, by norm_num, by simp⟩

/-- Claim C5, amended: the pagination loop returns the concatenation of
the fetched batches in fetch order, walking the cursor to the start of
the first kline of each batch plus one, and stops exactly at the first
batch that is empty, shorter than the truthy limit, or whose next cursor
is at least (rather than strictly greater than) the end bound: every
earlier batch fails that condition and, when fuel was not exhausted, the
last batch satisfies it. -/
theorem request_klines_pagination (fetch : Option Int → List Kline)
    (limit? : Option Nat) (startTime? endTime? : Option Int) (fuel : Nat) :
    request_klines fetch limit? startTime? endTime? fuel
      = (fetchBatches fetch (limit?.getD 500) (endTime?.getD sysMaxsize) fuel
          startTime?).flatten
    ∧ (∀ b, b ∈ (fetchBatches fetch (limit?.getD 500) (endTime?.getD sysMaxsize)
          fuel startTime?).dropLast →
        stopHere (limit?.getD 500) (endTime?.getD sysMaxsize) b = false)
    ∧ ((fetchBatches fetch (limit?.getD 500) (endTime?.getD sysMaxsize) fuel
          startTime?).length < fuel →
        ∃ b, (fetchBatches fetch (limit?.getD 500) (endTime?.getD sysMaxsize)
            fuel startTime?).getLast? = some b
          ∧ stopHere (limit?.getD 500) (endTime?.getD sysMaxsize) b = true) := by
  refine ⟨?_, ?_, ?_⟩
  · simpa [request_klines] using
      requestKlinesLoop_eq_flatten fetch (limit?.getD 500)
        (endTime?.getD sysMaxsize) fuel startTime? []
  · intro b
    exact fetchBatches_dropLast fetch (limit?.getD 500)
      (endTime?.getD sysMaxsize) fuel startTime? b
  · exact fetchBatches_getLast fetch (limit?.getD 500)
      (endTime?.getD sysMaxsize) fuel startTime?

/-- Witness for claim C5 on a concrete fetch whose first batch is empty:
the loop returns the empty concatenation and the last (only) batch
satisfies the stopping condition. -/
theorem request_klines_pagination_witness :
    request_klines (fun _ => []) none none none 2 = []
    ∧ (∃ b, (fetchBatches (fun _ => []) 500 sysMaxsize 2 none).getLast? = some b
        ∧ stopHere 500 sysMaxsize b = true) :=
  ⟨(request_klines_pagination (fun _ => []) none none none 2).1,
   (request_klines_pagination (fun _ => []) none none none 2).2.2 (by decide)⟩

/-- Claim C4: for every signed request, the final query string is the
URL encoded payload (with the timestamp field set) followed by the
signature parameter, whose value is the lower case hexadecimal digest of
HMAC SHA256 keyed by the secret over exactly that encoded payload; and
at secret s with payload symbol BTCUSDT and timestamp 1700000000000 the
encoded payload is the fixture query string and the signature is the
digest of precisely that string. -/
theorem binance_signed_query (hmacSha256 : String → String → List Nat)
    (secret : String) (payload : List (String × String)) (timestampMs : Nat) :
    fetchQuery hmacSha256 secret payload timestampMs true
      = urlencode (dictSet payload "timestamp" (toString timestampMs))
        ++ "&signature="
        ++ hexLower (hmacSha256 secret
            (urlencode (dictSet payload "timestamp" (toString timestampMs))))
    ∧ fetchQuery hmacSha256 "s" [ ("symbol", "BTCUSDT") ] 1700000000000 true
      = "symbol=BTCUSDT&timestamp=1700000000000&signature="
        ++ hexLower (hmacSha256 "s" "symbol=BTCUSDT&timestamp=1700000000000") := by
  constructor
  · rfl
  · have henc : urlencode (dictSet [ ("symbol", "BTCUSDT") ] "timestamp"
        (toString (1700000000000 : Nat)))
        = "symbol=BTCUSDT&timestamp=1700000000000" := by decide
    simp only [fetchQuery, henc, if_true]
    congr 1

/-- Claim C9: the primary account type is the first entry of the
priority list DEMO, AWS, LIVE that is present among the configured
connectors; a submission with an explicit account type is appended to
the queue of that account type, and a submission without one is appended
to the queue of the primary account type. -/
theorem ems_primary_account_routing (connectors : List OkxAccountType)
    (queues : List (OkxAccountType × List OrderSubmit)) (order : OrderSubmit) :
    set_account_type connectors
      = (if connectors.contains OkxAccountType.DEMO then some OkxAccountType.DEMO
         else if connectors.contains OkxAccountType.AWS then some OkxAccountType.AWS
         else if connectors.contains OkxAccountType.LIVE then some OkxAccountType.LIVE
         else none)
    ∧ (∀ a q, dictGet queues a = some q →
        submit_order queues (set_account_type connectors) order (some a)
          = Except.ok (dictSet queues a (q ++ [order])))
    ∧ (∀ p q, set_account_type connectors = some p → dictGet queues p = some q →
        submit_order queues (set_account_type connectors) order none
          = Except.ok (dictSet queues p (q ++ [order]))) := by
  refine ⟨?_, ?_, ?_⟩
  · simp only [set_account_type, OKX_ACCOUNT_TYPE_PRIORITY]
    by_cases h1 : OkxAccountType.DEMO ∈ connectors
      <;> by_cases h2 : OkxAccountType.AWS ∈ connectors
      <;> by_cases h3 : OkxAccountType.LIVE ∈ connectors
      <;> simp [List.find?_cons, h1, h2, h3]
  · intro a q hq
    simp only [submit_order, hq]
  · intro p q hp hq
    simp only [submit_order, hp, hq]

/-- Witness for claim C9: with connectors AWS and LIVE configured, the
primary account type is AWS and a submission without an explicit account
type lands on the AWS queue. -/
theorem ems_primary_account_routing_witness :
    submit_order
        (build_order_submit_queues [ OkxAccountType.AWS, OkxAccountType.LIVE ])
        (set_account_type [ OkxAccountType.AWS, OkxAccountType.LIVE ])
        { symbol := "BTCUSDT-PERP.OKX", submitType := SubmitType.CREATE } none
      = Except.ok
          [ (OkxAccountType.AWS,
              [ { symbol := "BTCUSDT-PERP.OKX", submitType := SubmitType.CREATE } ])
          , (OkxAccountType.LIVE, []) ] :=
  ((ems_primary_account_routing [ OkxAccountType.AWS, OkxAccountType.LIVE ]
      (build_order_submit_queues [ OkxAccountType.AWS, OkxAccountType.LIVE ])
      { symbol := "BTCUSDT-PERP.OKX", submitType := SubmitType.CREATE }).2.2
    OkxAccountType.AWS [] (by decide) (by decide)).trans
    (congrArg Except.ok (by decide))

end NexusTrader


